import Mathlib

/-!
Verification of the TLE parsing-and-normalization core of go-satellite
(`helpers.go`).

Modelling conventions:
* Go strings are `List Char` (the TLE format is ASCII, one byte per rune,
  so Go's byte slicing coincides with character slicing).
* `strconv.ParseFloat` on the plain decimal grammar is modelled exactly by
  `strconvParseFloat`, returning an exact decimal number `Dec`
  (mantissa times a power of ten).  The special forms Go also accepts
  (hexadecimal floats, `Inf`/`NaN`, digit-group underscores) have no exact
  rational meaning or do not occur in fixed-column TLE fields and are
  outside the modelled domain.  Float64 rounding is abstracted: values are
  exact decimals.
* A Go `panic` (slice out of range, `log.Panic`) is modelled as `none` for
  `ParseTLE` and as the `ParseResult.fault` outcome for `ParseTLEV2`.
* Floating point arithmetic of the normalization stage is modelled over an
  arbitrary linear ordered field `K` with the constant `math.Pi` passed as
  a parameter `pi`; theorems instantiate `K := ℝ`, `pi := Real.pi`.
-/

/-- Modelled from the spec: the gravitational-model selector, "a small closed
enumeration of named constant sets" (spec §3, §6).  The constant bundles
themselves live outside this core ("its internal values are not part of this
core"), so a resolved bundle is represented by its selector. -/
inductive Gravity where
  | wgs72old : Gravity
  | wgs72 : Gravity
  | wgs84 : Gravity
deriving DecidableEq

/-- Modelled from the spec: resolving a selector to its constant bundle is "a
pure lookup, never mutated" (spec §3); the bundle is identified by its
selector. -/
def getGravConst (g : Gravity) : Gravity := g

/-- Modelled from the spec: the validating resolver.  Every member of the
closed enumeration resolves, so the lookup never fails. -/
def getGravConstV2 (g : Gravity) : Except String Gravity := .ok (getGravConst g)

deriving instance DecidableEq for Except

/-- An exact decimal number: value `num * 10 ^ exp`.  This is the exact
semantics of a parsed Go float64 literal, before rounding. -/
structure Dec where
  num : ℤ
  exp : ℤ
deriving DecidableEq

/-- The rational value of an exact decimal. -/
def Dec.toRat (d : Dec) : ℚ := (d.num : ℚ) * 10 ^ d.exp

/-- The value of an exact decimal in any division ring (models loading the
parsed value into float64 arithmetic). -/
def Dec.toK (K : Type) [DivisionRing K] (d : Dec) : K := (d.num : K) * 10 ^ d.exp

/-- ASCII whitespace, modelling the character class trimmed by Go's
`strings.TrimSpace` on TLE input (which is ASCII). -/
def isSpaceGo (c : Char) : Bool :=
  c = ' ' || c = Char.ofNat 9 || c = Char.ofNat 10 || c = Char.ofNat 11 ||
  c = Char.ofNat 12 || c = Char.ofNat 13

/-- Models `strings.TrimSpace`. -/
def trimSpace (l : List Char) : List Char :=
  ((l.dropWhile isSpaceGo).reverse.dropWhile isSpaceGo).reverse

/-- Removes the first `n` space characters, modelling
`strings.Replace(s, " ", "", n)`. -/
def stripSpacesUpTo : ℕ → List Char → List Char
  | _, [] => []
  | 0, l => l
  | n + 1, c :: r => if c = ' ' then stripSpacesUpTo n r else c :: stripSpacesUpTo (n + 1) r

/-- Models `strings.Replace(s, " ", "", 2)` as used for the eight
space-tolerant numeric fields. -/
def stripSpaces2 (l : List Char) : List Char := stripSpacesUpTo 2 l

/-- The characters of the half-open slice `l[a:b]`, unchecked. -/
def sliceGo (l : List Char) (a b : ℕ) : List Char := (l.drop a).take (b - a)

/-- Models Go string slicing `l[a:b]` (with `a ≤ b` literals): `none` is the
out-of-range panic. -/
def goSlice (l : List Char) (a b : ℕ) : Option (List Char) :=
  if b ≤ l.length then some (sliceGo l a b) else none

/-- Value of a digit string, most significant digit first. -/
def digitsVal (l : List Char) : ℕ := l.foldl (fun a c => 10 * a + (c.toNat - 48)) 0

/-- Consumes an optional leading sign; returns (isNegative, rest). -/
def readSign : List Char → Bool × List Char
  | '+' :: r => (false, r)
  | '-' :: r => (true, r)
  | l => (false, l)

/-- Negates an exact decimal when the flag is set. -/
def applyNeg (neg : Bool) (d : Dec) : Dec := if neg then ⟨-d.num, d.exp⟩ else d

/-- Reads the decimal mantissa `digits[.digits]` of Go's float grammar
(at least one digit overall); returns its exact value and the rest. -/
def readMantissa (l : List Char) : Option (Dec × List Char) :=
  let ip := l.takeWhile Char.isDigit
  let r1 := l.dropWhile Char.isDigit
  match r1 with
  | '.' :: r2 =>
      let fp := r2.takeWhile Char.isDigit
      let r3 := r2.dropWhile Char.isDigit
      if ip.isEmpty && fp.isEmpty then none
      else some (⟨(digitsVal (ip ++ fp) : ℤ), -(fp.length : ℤ)⟩, r3)
  | _ => if ip.isEmpty then none else some (⟨(digitsVal ip : ℤ), 0⟩, r1)

/-- Reads the exponent part after `e`/`E`: optional sign, at least one digit,
nothing after. -/
def readExpPart (neg : Bool) (d : Dec) (r : List Char) : Except String Dec :=
  let s := readSign r
  let ed := s.2.takeWhile Char.isDigit
  let r4 := s.2.dropWhile Char.isDigit
  if ed.isEmpty || !r4.isEmpty then .error "invalid syntax"
  else .ok (applyNeg neg ⟨d.num, d.exp + (if s.1 then -(digitsVal ed : ℤ) else (digitsVal ed : ℤ))⟩)

/-- Models `strconv.ParseFloat(s, 64)` on the plain decimal grammar
`[+-]digits[.digits][(e|E)[+-]digits]`, with exact decimal semantics. -/
def strconvParseFloat (l : List Char) : Except String Dec :=
  match readMantissa (readSign l).2 with
  | none => .error "invalid syntax"
  | some (m, r1) =>
    match r1 with
    | [] => .ok (applyNeg (readSign l).1 m)
    | 'e' :: r2 => readExpPart (readSign l).1 m r2
    | 'E' :: r2 => readExpPart (readSign l).1 m r2
    | _ => .error "invalid syntax"

/-- Models `strconv.ParseInt(s, 10, 64)` (and bit size 0 on a 64-bit
platform): optional sign, at least one digit, nothing else, 64-bit range. -/
def strconvParseInt (l : List Char) : Except String ℤ :=
  let s := readSign l
  let ds := s.2.takeWhile Char.isDigit
  let rest := s.2.dropWhile Char.isDigit
  if ds.isEmpty || !rest.isEmpty then .error "invalid syntax"
  else
    let v : ℤ := if s.1 then -(digitsVal ds : ℤ) else (digitsVal ds : ℤ)
    if v < -(2 ^ 63) ∨ 2 ^ 63 - 1 < v then .error "value out of range" else .ok v

/-- Models the source helper `parseFloat`, which calls `log.Panic` on a parse
failure: `none` is the panic. -/
def parseFloat (l : List Char) : Option Dec :=
  match strconvParseFloat l with
  | .ok v => some v
  | .error _ => none

/-- Models the source helper `parseInt`, which calls `log.Panic` on a parse
failure: `none` is the panic. -/
def parseInt (l : List Char) : Option ℤ :=
  match strconvParseInt l with
  | .ok v => some v
  | .error _ => none

/-- The reconstructed compressed-form text for `nddot`/`bstar`:
`sign ++ "." ++ mantissa ++ "e" ++ exponent`, then the two-space strip, as in
`strings.Replace(line1[44:45]+"."+line1[45:50]+"e"+line1[50:52], " ", "", 2)`. -/
def compressedText (sign mant expo : List Char) : List Char :=
  stripSpaces2 (sign ++ '.' :: (mant ++ 'e' :: expo))

/-- The reconstructed compressed-form value: parse of `compressedText`. -/
def compressedValue (sign mant expo : List Char) : Except String Dec :=
  strconvParseFloat (compressedText sign mant expo)

/-- The eccentricity text: implied leading `"0."`, as in
`parseFloat("." + line2[26:33])`. -/
def eccoText (raw : List Char) : List Char := '.' :: raw

/-- The eccentricity value: parse of `eccoText`. -/
def eccoValue (raw : List Char) : Except String Dec :=
  strconvParseFloat (eccoText raw)

/-- The `Satellite` record, over a scalar type `α` for its float64 fields
(`α := Dec` for the exactly-parsed record, a field `K` downstream). -/
structure Satellite (α : Type) where
  line1 : List Char
  line2 : List Char
  error : ℤ
  whichconst : Gravity
  satnum : ℤ
  epochyr : ℤ
  epochdays : α
  ndot : α
  nddot : α
  bstar : α
  inclo : α
  nodeo : α
  ecco : α
  argpo : α
  mo : α
  no : α
  jdsatepoch : α
deriving DecidableEq

/-- Outcome of the validating policy: a record, a wrapped error
(`errors.Wrap(cause, label)`), or a runtime fault (panic). -/
inductive ParseResult (α : Type) where
  | ok : α → ParseResult α
  | fail : String → String → ParseResult α
  | fault : ParseResult α
deriving DecidableEq

/-- `true` exactly when a record was produced. -/
def ParseResult.isOk {α : Type} : ParseResult α → Bool
  | .ok _ => true
  | _ => false

/-- Sequencing of fallible steps in `ParseTLEV2`; faults and errors
short-circuit. -/
def pbind {α β : Type} : ParseResult α → (α → ParseResult β) → ParseResult β
  | .ok a, f => f a
  | .fail l c, _ => .fail l c
  | .fault, _ => .fault

/-- A Go slice expression inside `ParseTLEV2`: out of range is a fault. -/
def sliceV2 (l : List Char) (a b : ℕ) : ParseResult (List Char) :=
  match goSlice l a b with
  | some t => .ok t
  | none => .fault

/-- An integer field of `ParseTLEV2`: a parse error is wrapped with the
field's label. -/
def intField (label : String) (t : List Char) : ParseResult ℤ :=
  match strconvParseInt t with
  | .ok v => .ok v
  | .error c => .fail label c

/-- A float field of `ParseTLEV2`: a parse error is wrapped with the
field's label. -/
def floatField (label : String) (t : List Char) : ParseResult Dec :=
  match strconvParseFloat t with
  | .ok v => .ok v
  | .error c => .fail label c

/-- One strict-policy field: slice `l[a:b]` (panic if out of range), apply the
field's text transform, parse with `parseFloat` (panic on failure). -/
def floatAt (l : List Char) (a b : ℕ) (tr : List Char → List Char) : Option Dec :=
  Option.bind (goSlice l a b) fun raw => parseFloat (tr raw)

/-- One strict-policy integer field: slice, transform, `parseInt`. -/
def intAt (l : List Char) (a b : ℕ) (tr : List Char → List Char) : Option ℤ :=
  Option.bind (goSlice l a b) fun raw => parseInt (tr raw)

/-- One strict-policy compressed field (`nddot`/`bstar`): the three slices of
sign, mantissa and exponent, then `parseFloat` of the reconstructed text. -/
def compressedAt (l : List Char) (sa sb ma mb ea eb : ℕ) : Option Dec :=
  Option.bind (goSlice l sa sb) fun sgn =>
  Option.bind (goSlice l ma mb) fun mant =>
  Option.bind (goSlice l ea eb) fun expo =>
  parseFloat (compressedText sgn mant expo)

/-- Line-1 fields of `ParseTLE` (helpers.go:42-49), in source order:
satnum, epochyr, epochdays, ndot, nddot, bstar. -/
def line1Fields (l1 : List Char) : Option (ℤ × ℤ × Dec × Dec × Dec × Dec) :=
  Option.bind (intAt l1 2 7 trimSpace) fun satNum =>
  Option.bind (intAt l1 18 20 id) fun epochYear =>
  Option.bind (floatAt l1 20 32 id) fun epochDays =>
  Option.bind (floatAt l1 33 43 stripSpaces2) fun ndot =>
  Option.bind (compressedAt l1 44 45 45 50 50 52) fun nddot =>
  Option.bind (compressedAt l1 53 54 54 59 59 61) fun bstar =>
  some (satNum, epochYear, epochDays, ndot, nddot, bstar)

/-- Line-2 fields of `ParseTLE` (helpers.go:53-58), in source order:
inclo, nodeo, ecco, argpo, mo, no. -/
def line2Fields (l2 : List Char) : Option (Dec × Dec × Dec × Dec × Dec × Dec) :=
  Option.bind (floatAt l2 8 16 stripSpaces2) fun inclo =>
  Option.bind (floatAt l2 17 25 stripSpaces2) fun nodeo =>
  Option.bind (floatAt l2 26 33 eccoText) fun ecco =>
  Option.bind (floatAt l2 34 42 stripSpaces2) fun argpo =>
  Option.bind (floatAt l2 43 51 stripSpaces2) fun mo =>
  Option.bind (floatAt l2 52 63 stripSpaces2) fun no =>
  some (inclo, nodeo, ecco, argpo, mo, no)

/-- Embedding of `ParseTLE` (helpers.go:34-61), the strict policy: both lines
of fields in source order; a slice out of range or a parse failure panics
(`none`); otherwise the assembled record. -/
def ParseTLE (line1 line2 : List Char) (gravConst : Gravity) : Option (Satellite Dec) :=
  Option.bind (line1Fields line1) fun f1 =>
  Option.bind (line2Fields line2) fun f2 =>
  some { line1 := line1, line2 := line2, error := 0,
         whichconst := getGravConst gravConst,
         satnum := f1.1, epochyr := f1.2.1, epochdays := f1.2.2.1,
         ndot := f1.2.2.2.1, nddot := f1.2.2.2.2.1, bstar := f1.2.2.2.2.2,
         inclo := f2.1, nodeo := f2.2.1, ecco := f2.2.2.1,
         argpo := f2.2.2.2.1, mo := f2.2.2.2.2.1, no := f2.2.2.2.2.2,
         jdsatepoch := ⟨0, 0⟩ }

/-- One validating-policy float field: slice `l[a:b]` (fault if out of range),
apply the field's text transform, parse, wrapping a parse error with the
field's label. -/
def floatFieldAt (label : String) (l : List Char) (a b : ℕ)
    (tr : List Char → List Char) : ParseResult Dec :=
  pbind (sliceV2 l a b) fun raw => floatField label (tr raw)

/-- One validating-policy integer field: slice, transform, labelled parse. -/
def intFieldAt (label : String) (l : List Char) (a b : ℕ)
    (tr : List Char → List Char) : ParseResult ℤ :=
  pbind (sliceV2 l a b) fun raw => intField label (tr raw)

/-- One validating-policy compressed field (`nddot`/`bstar`): the three
slices of sign, mantissa and exponent, then the labelled parse of the
reconstructed text. -/
def compressedFieldAt (label : String) (l : List Char) (sa sb ma mb ea eb : ℕ) :
    ParseResult Dec :=
  pbind (sliceV2 l sa sb) fun sgn =>
  pbind (sliceV2 l ma mb) fun mant =>
  pbind (sliceV2 l ea eb) fun expo =>
  floatField label (compressedText sgn mant expo)

/-- Line-1 fields of `ParseTLEV2` (helpers.go:71-96), in source order, with
the error labels of the source. -/
def line1FieldsV2 (l1 : List Char) : ParseResult (ℤ × ℤ × Dec × Dec × Dec × Dec) :=
  pbind (intFieldAt "invalid sat num" l1 2 7 trimSpace) fun satNum =>
  pbind (intFieldAt "invalid epoch year" l1 18 20 id) fun epochYear =>
  pbind (floatFieldAt "invalid epoch days" l1 20 32 id) fun epochDays =>
  pbind (floatFieldAt "invalid ndot" l1 33 43 stripSpaces2) fun ndot =>
  pbind (compressedFieldAt "invalid nddot" l1 44 45 45 50 50 52) fun nddot =>
  pbind (compressedFieldAt "invalid bstar" l1 53 54 54 59 59 61) fun bstar =>
  .ok (satNum, epochYear, epochDays, ndot, nddot, bstar)

/-- Line-2 fields of `ParseTLEV2` (helpers.go:100-123), in source order, with
the error labels of the source. -/
def line2FieldsV2 (l2 : List Char) : ParseResult (Dec × Dec × Dec × Dec × Dec × Dec) :=
  pbind (floatFieldAt "invalid inclo" l2 8 16 stripSpaces2) fun inclo =>
  pbind (floatFieldAt "invalid nodeo" l2 17 25 stripSpaces2) fun nodeo =>
  pbind (floatFieldAt "invalid ecco" l2 26 33 eccoText) fun ecco =>
  pbind (floatFieldAt "invalid argpo" l2 34 42 stripSpaces2) fun argpo =>
  pbind (floatFieldAt "invalid mo" l2 43 51 stripSpaces2) fun mo =>
  pbind (floatFieldAt "invalid no" l2 52 63 stripSpaces2) fun no =>
  .ok (inclo, nodeo, ecco, argpo, mo, no)

/-- Embedding of `ParseTLEV2` (helpers.go:64-144), the validating policy: the
gravity lookup, then both lines of fields in source order; a parse failure
returns the wrapped named error and no record, a slice out of range still
faults. -/
def ParseTLEV2 (line1 line2 : List Char) (gravConst : Gravity) :
    ParseResult (Satellite Dec) :=
  pbind (match getGravConstV2 gravConst with
         | .ok w => .ok w
         | .error e => .fail e "") fun whichConst =>
  pbind (line1FieldsV2 line1) fun f1 =>
  pbind (line2FieldsV2 line2) fun f2 =>
  .ok { line1 := line1, line2 := line2, error := 0,
        whichconst := whichConst,
        satnum := f1.1, epochyr := f1.2.1, epochdays := f1.2.2.1,
        ndot := f1.2.2.2.1, nddot := f1.2.2.2.2.1, bstar := f1.2.2.2.2.2,
        inclo := f2.1, nodeo := f2.2.1, ecco := f2.2.2.1,
        argpo := f2.2.2.2.1, mo := f2.2.2.2.2.1, no := f2.2.2.2.2.2,
        jdsatepoch := ⟨0, 0⟩ }

/-- The label, kind and transformed text of one logical TLE field. -/
structure TLEField where
  label : String
  isInt : Bool
  text : List Char
deriving DecidableEq

/-- The twelve logical fields of a TLE pair in source parse order, with the
source's error labels and exactly the text each parser hands to `strconv`
(for lines long enough that every slice is in range). -/
def tleFieldTable (l1 l2 : List Char) : List TLEField :=
  [ ⟨"invalid sat num", true, trimSpace (sliceGo l1 2 7)⟩,
    ⟨"invalid epoch year", true, sliceGo l1 18 20⟩,
    ⟨"invalid epoch days", false, sliceGo l1 20 32⟩,
    ⟨"invalid ndot", false, stripSpaces2 (sliceGo l1 33 43)⟩,
    ⟨"invalid nddot", false, compressedText (sliceGo l1 44 45) (sliceGo l1 45 50) (sliceGo l1 50 52)⟩,
    ⟨"invalid bstar", false, compressedText (sliceGo l1 53 54) (sliceGo l1 54 59) (sliceGo l1 59 61)⟩,
    ⟨"invalid inclo", false, stripSpaces2 (sliceGo l2 8 16)⟩,
    ⟨"invalid nodeo", false, stripSpaces2 (sliceGo l2 17 25)⟩,
    ⟨"invalid ecco", false, eccoText (sliceGo l2 26 33)⟩,
    ⟨"invalid argpo", false, stripSpaces2 (sliceGo l2 34 42)⟩,
    ⟨"invalid mo", false, stripSpaces2 (sliceGo l2 43 51)⟩,
    ⟨"invalid no", false, stripSpaces2 (sliceGo l2 52 63)⟩ ]

/-- The parse defect of one field, if any: the `strconv` error message. -/
def fieldDefect (f : TLEField) : Option String :=
  if f.isInt then
    match strconvParseInt f.text with
    | .ok _ => none
    | .error c => some c
  else
    match strconvParseFloat f.text with
    | .ok _ => none
    | .error c => some c

/-- The first field with a parse defect, with its label and cause. -/
def firstDefect : List TLEField → Option (String × String)
  | [] => none
  | f :: rest =>
    match fieldDefect f with
    | some c => some (f.label, c)
    | none => firstDefect rest

/-- The line-1 part of `tleFieldTable`. -/
def line1Table (l1 : List Char) : List TLEField :=
  [ ⟨"invalid sat num", true, trimSpace (sliceGo l1 2 7)⟩,
    ⟨"invalid epoch year", true, sliceGo l1 18 20⟩,
    ⟨"invalid epoch days", false, sliceGo l1 20 32⟩,
    ⟨"invalid ndot", false, stripSpaces2 (sliceGo l1 33 43)⟩,
    ⟨"invalid nddot", false, compressedText (sliceGo l1 44 45) (sliceGo l1 45 50) (sliceGo l1 50 52)⟩,
    ⟨"invalid bstar", false, compressedText (sliceGo l1 53 54) (sliceGo l1 54 59) (sliceGo l1 59 61)⟩ ]

/-- The line-2 part of `tleFieldTable`. -/
def line2Table (l2 : List Char) : List TLEField :=
  [ ⟨"invalid inclo", false, stripSpaces2 (sliceGo l2 8 16)⟩,
    ⟨"invalid nodeo", false, stripSpaces2 (sliceGo l2 17 25)⟩,
    ⟨"invalid ecco", false, eccoText (sliceGo l2 26 33)⟩,
    ⟨"invalid argpo", false, stripSpaces2 (sliceGo l2 34 42)⟩,
    ⟨"invalid mo", false, stripSpaces2 (sliceGo l2 43 51)⟩,
    ⟨"invalid no", false, stripSpaces2 (sliceGo l2 52 63)⟩ ]

/-- The six line-1 values on a structurally complete line with no parse
defect (each value defaulted where its parse cannot fail). -/
def line1Values (l1 : List Char) : ℤ × ℤ × Dec × Dec × Dec × Dec :=
  (((strconvParseInt (trimSpace (sliceGo l1 2 7))).toOption).getD 0,
   ((strconvParseInt (sliceGo l1 18 20)).toOption).getD 0,
   ((strconvParseFloat (sliceGo l1 20 32)).toOption).getD ⟨0, 0⟩,
   ((strconvParseFloat (stripSpaces2 (sliceGo l1 33 43))).toOption).getD ⟨0, 0⟩,
   ((compressedValue (sliceGo l1 44 45) (sliceGo l1 45 50) (sliceGo l1 50 52)).toOption).getD ⟨0, 0⟩,
   ((compressedValue (sliceGo l1 53 54) (sliceGo l1 54 59) (sliceGo l1 59 61)).toOption).getD ⟨0, 0⟩)

/-- The six line-2 values on a structurally complete line with no parse
defect. -/
def line2Values (l2 : List Char) : Dec × Dec × Dec × Dec × Dec × Dec :=
  (((strconvParseFloat (stripSpaces2 (sliceGo l2 8 16))).toOption).getD ⟨0, 0⟩,
   ((strconvParseFloat (stripSpaces2 (sliceGo l2 17 25))).toOption).getD ⟨0, 0⟩,
   ((eccoValue (sliceGo l2 26 33)).toOption).getD ⟨0, 0⟩,
   ((strconvParseFloat (stripSpaces2 (sliceGo l2 34 42))).toOption).getD ⟨0, 0⟩,
   ((strconvParseFloat (stripSpaces2 (sliceGo l2 43 51))).toOption).getD ⟨0, 0⟩,
   ((strconvParseFloat (stripSpaces2 (sliceGo l2 52 63))).toOption).getD ⟨0, 0⟩)

/-- The record assembled from a structurally complete pair of lines when no
field has a parse defect. -/
def parsedRecord (l1 l2 : List Char) (g : Gravity) : Satellite Dec :=
  { line1 := l1, line2 := l2, error := 0, whichconst := getGravConst g,
    satnum := (line1Values l1).1, epochyr := (line1Values l1).2.1,
    epochdays := (line1Values l1).2.2.1, ndot := (line1Values l1).2.2.2.1,
    nddot := (line1Values l1).2.2.2.2.1, bstar := (line1Values l1).2.2.2.2.2,
    inclo := (line2Values l2).1, nodeo := (line2Values l2).2.1,
    ecco := (line2Values l2).2.2.1, argpo := (line2Values l2).2.2.2.1,
    mo := (line2Values l2).2.2.2.2.1, no := (line2Values l2).2.2.2.2.2,
    jdsatepoch := ⟨0, 0⟩ }

/-- Embedding of the constant `XPDOTP = 1440.0 / (2.0 * math.Pi)`
(helpers.go:16), over a field with `math.Pi` as parameter. -/
def XPDOTP (K : Type) [Field K] (pi : K) : K := 1440 / (2 * pi)

/-- Embedding of the constant `DEG2RAD = math.Pi / 180.0` (helpers.go:14). -/
def DEG2RAD (K : Type) [Field K] (pi : K) : K := pi / 180

/-- Embedding of the unit-normalization statements shared by `TLEToSat`
(helpers.go:153-160) and `TLEToSatV2` (helpers.go:187-194):
`no /= XPDOTP`, `ndot /= XPDOTP*1440`, `nddot /= XPDOTP*1440*1440`, and the
four angles multiplied by `DEG2RAD`. -/
def normalizeUnits (K : Type) [Field K] (pi : K) (s : Satellite K) : Satellite K :=
  { s with no := s.no / XPDOTP K pi,
           ndot := s.ndot / (XPDOTP K pi * 1440),
           nddot := s.nddot / (XPDOTP K pi * 1440 * 1440),
           inclo := s.inclo * DEG2RAD K pi,
           nodeo := s.nodeo * DEG2RAD K pi,
           argpo := s.argpo * DEG2RAD K pi,
           mo := s.mo * DEG2RAD K pi }

/-- Embedding of the century pivot shared by `TLEToSat` (helpers.go:162-167)
and `TLEToSatV2` (helpers.go:196-201): years below 57 get 2000 added,
the rest 1900. -/
def resolveYear (epochyr : ℤ) : ℤ :=
  if epochyr < 57 then epochyr + 2000 else epochyr + 1900

/-- Modelled from the spec (§4.3): the standard Gregorian leap-year rule,
"divisible by 4, except centuries unless divisible by 400". -/
def isLeapYear (y : ℤ) : Bool := y % 4 == 0 && (y % 100 != 0 || y % 400 == 0)

/-- Modelled from the spec (§4.3): the month lengths of the resolved year. -/
def monthLengths (y : ℤ) : List ℤ :=
  [31, if isLeapYear y then 29 else 28, 31, 30, 31, 30, 31, 31, 30, 31, 30, 31]

/-- Modelled from the spec (§4.3): walk the month lengths to turn a 1-based
day-of-year into a month and day-of-month. -/
def monthDay : List ℤ → ℤ → ℤ → ℤ × ℤ
  | [], m, d => (m, d)
  | len :: rest, m, d => if d > len then monthDay rest (m + 1) (d - len) else (m, d)

/-- Models Go's float-to-int conversion (truncation toward zero). -/
def truncInt (K : Type) [LinearOrderedField K] [FloorRing K] (x : K) : ℤ :=
  if x < 0 then ⌈x⌉ else ⌊x⌋

/-- Modelled from the spec (§4.3): `days2mdhms`, defined in this repository
outside the parsing core.  "The integer part is the day-of-year (1-based);
the fractional part is the time-of-day, decomposed into hour, minute, and
second"; month and day honor the leap-year rule. -/
def days2mdhms (K : Type) [LinearOrderedField K] [FloorRing K]
    (year : ℤ) (days : K) : ℤ × ℤ × ℤ × ℤ × K :=
  let dayofyr : ℤ := truncInt K days
  let md := monthDay (monthLengths year) 1 dayofyr
  let temp : K := days - (dayofyr : K)
  let hr : ℤ := truncInt K (temp * 24)
  let minute : ℤ := truncInt K (temp * 1440 - (hr : K) * 60)
  let sec : K := temp * 86400 - (hr : K) * 3600 - (minute : K) * 60
  (md.1, md.2, hr, minute, sec)

/-- Modelled from the spec (§4.3): `JDay`, defined in this repository outside
the parsing core: "the standard astronomical Julian-date algorithm", taking
the integer calendar fields (the source truncates seconds to an integer at
the call site). -/
def jday (K : Type) [LinearOrderedField K] [FloorRing K]
    (year mon day hr minute sec : ℤ) : K :=
  367 * (year : K)
    - ((⌊(7 * ((year : K) + ((⌊((mon : K) + 9) / 12⌋ : ℤ) : K))) / 4⌋ : ℤ) : K)
    + ((⌊275 * (mon : K) / 9⌋ : ℤ) : K)
    + (day : K) + (3442027 : K) / 2
    + (((sec : K) / 60 + (minute : K)) / 60 + (hr : K)) / 24

/-- Loads the exactly-parsed record into the scalar field `K` (the parsed
values are float64 in the source; the parse stage is exact here). -/
def Satellite.castK (K : Type) [DivisionRing K] (s : Satellite Dec) : Satellite K :=
  { line1 := s.line1, line2 := s.line2, error := s.error,
    whichconst := s.whichconst, satnum := s.satnum, epochyr := s.epochyr,
    epochdays := s.epochdays.toK K, ndot := s.ndot.toK K,
    nddot := s.nddot.toK K, bstar := s.bstar.toK K, inclo := s.inclo.toK K,
    nodeo := s.nodeo.toK K, ecco := s.ecco.toK K, argpo := s.argpo.toK K,
    mo := s.mo.toK K, no := s.no.toK K, jdsatepoch := s.jdsatepoch.toK K }

/-- The shared post-parse stage of `TLEToSat` (helpers.go:151-175) and
`TLEToSatV2` (helpers.go:185-209): unit normalization, century pivot,
epoch resolution into `jdsatepoch`, then the external propagator
initialization `sgp4init`, which mutates the record and is modelled from the
spec (§1: an opaque external collaborator) as an arbitrary function
parameter `sgp4initF`. -/
def tleToSatPost (K : Type) [LinearOrderedField K] [FloorRing K] (pi : K)
    (sgp4initF : Satellite K → Satellite K) (sat0 : Satellite K) : Satellite K :=
  let sat1 := normalizeUnits K pi sat0
  let year := resolveYear sat1.epochyr
  let m5 := days2mdhms K year sat1.epochdays
  let sat2 := { sat1 with
    jdsatepoch := jday K year m5.1 m5.2.1 m5.2.2.1 m5.2.2.2.1 (truncInt K m5.2.2.2.2) }
  sgp4initF sat2

/-- Embedding of `TLEToSat` (helpers.go:147-176): strict parse, then the
shared post-parse stage. -/
def TLEToSat (K : Type) [LinearOrderedField K] [FloorRing K] (pi : K)
    (sgp4initF : Satellite K → Satellite K)
    (line1 line2 : List Char) (gravConst : Gravity) : Option (Satellite K) :=
  (ParseTLE line1 line2 gravConst).map fun s =>
    tleToSatPost K pi sgp4initF (Satellite.castK K s)

/-- Embedding of `TLEToSatV2` (helpers.go:179-210): validating parse, then
the identical post-parse stage; the parse outcome is the only error
channel. -/
def TLEToSatV2 (K : Type) [LinearOrderedField K] [FloorRing K] (pi : K)
    (sgp4initF : Satellite K → Satellite K)
    (line1 line2 : List Char) (gravConst : Gravity) : ParseResult (Satellite K) :=
  match ParseTLEV2 line1 line2 gravConst with
  | .ok sat => .ok (tleToSatPost K pi sgp4initF (Satellite.castK K sat))
  | .fail l c => .fail l c
  | .fault => .fault

/-- A reference element set laid out on the format's exact columns. -/
def tleL1 : String :=
  "1 25544U 98067A   08264.51782528 -.00002182  00000-0 -11606-4 0  2927"

/-- The matching second line. -/
def tleL2 : String :=
  "2 25544  51.6416 247.4627 0006703 130.5360 325.0288 15.72125391563537"

/-- The reference first line with its epoch day-of-year replaced by the
out-of-range value `400.51782528`. -/
def tleL1Day400 : String :=
  "1 25544U 98067A   08400.51782528 -.00002182  00000-0 -11606-4 0  2927"

/-- The reference second line with the mean-anomaly columns replaced by
`"   5.028"`: three spaces around an otherwise well-formed number. -/
def tleL2Mo3Sp : String :=
  "2 25544  51.6416 247.4627 0006703 130.5360    5.028 15.72125391563537"

/-- The reference second line with a non-numeric mean-anomaly text
`"32X.0288"`. -/
def tleL2MoBad : String :=
  "2 25544  51.6416 247.4627 0006703 130.5360 32X.0288 15.72125391563537"

/-- The exact record parsed from `tleL1Day400`/`tleL2`: its epoch
day-of-year is 400.51782528, far outside [1, 367). -/
def day400Record : Satellite Dec :=
  { line1 := tleL1Day400.toList, line2 := tleL2.toList, error := 0,
    whichconst := Gravity.wgs84, satnum := 25544, epochyr := 8,
    epochdays := ⟨40051782528, -8⟩, ndot := ⟨-2182, -8⟩, nddot := ⟨0, -5⟩,
    bstar := ⟨-11606, -9⟩, inclo := ⟨516416, -4⟩, nodeo := ⟨2474627, -4⟩,
    ecco := ⟨6703, -7⟩, argpo := ⟨1305360, -4⟩, mo := ⟨3250288, -4⟩,
    no := ⟨1572125391, -8⟩, jdsatepoch := ⟨0, 0⟩ }

/-- The reference second line with a non-numeric inclination text
`" 5x.6416"`. -/
def tleL2IncloBad : String :=
  "2 25544  5x.6416 247.4627 0006703 130.5360 325.0288 15.72125391563537"

/-- Forgets the error information of a validating-policy outcome: `ok`
becomes `some`, both failure modes become `none` (the strict policy's
panic). -/
def ParseResult.toOption {α : Type} : ParseResult α → Option α
  | .ok a => some a
  | .fail _ _ => none
  | .fault => none

lemma pbind_ok {α β : Type} (a : α) (f : α → ParseResult β) :
    pbind (.ok a) f = f a := rfl

lemma pbind_fail {α β : Type} (l c : String) (f : α → ParseResult β) :
    pbind (.fail l c) f = .fail l c := rfl

lemma pbind_fault {α β : Type} (f : α → ParseResult β) :
    pbind .fault f = .fault := rfl

lemma pbind_eq_ok {α β : Type} {r : ParseResult α} {f : α → ParseResult β}
    {b : β} (h : pbind r f = .ok b) : ∃ a, r = .ok a ∧ f a = .ok b := by
  cases r with
  | ok a => exact ⟨a, rfl, h⟩
  | fail l c => exact absurd h (by simp [pbind])
  | fault => exact absurd h (by simp [pbind])

lemma toOption_pbind {α β : Type} (r : ParseResult α) (f : α → ParseResult β) :
    (pbind r f).toOption = Option.bind r.toOption (fun a => (f a).toOption) := by
  cases r <;> rfl

lemma sliceV2_toOption (l : List Char) (a b : ℕ) :
    (sliceV2 l a b).toOption = goSlice l a b := by
  unfold sliceV2
  cases goSlice l a b <;> rfl

lemma floatField_toOption (label : String) (t : List Char) :
    (floatField label t).toOption = parseFloat t := by
  unfold floatField parseFloat
  cases strconvParseFloat t <;> rfl

lemma intField_toOption (label : String) (t : List Char) :
    (intField label t).toOption = parseInt t := by
  unfold intField parseInt
  cases strconvParseInt t <;> rfl

lemma floatAt_eq_toOption (label : String) (l : List Char) (a b : ℕ)
    (tr : List Char → List Char) :
    floatAt l a b tr = (floatFieldAt label l a b tr).toOption := by
  unfold floatAt floatFieldAt
  rw [toOption_pbind, sliceV2_toOption]
  exact congrArg _ (funext fun raw => (floatField_toOption label (tr raw)).symm)

lemma intAt_eq_toOption (label : String) (l : List Char) (a b : ℕ)
    (tr : List Char → List Char) :
    intAt l a b tr = (intFieldAt label l a b tr).toOption := by
  unfold intAt intFieldAt
  rw [toOption_pbind, sliceV2_toOption]
  exact congrArg _ (funext fun raw => (intField_toOption label (tr raw)).symm)

lemma compressedAt_eq_toOption (label : String) (l : List Char)
    (sa sb ma mb ea eb : ℕ) :
    compressedAt l sa sb ma mb ea eb =
      (compressedFieldAt label l sa sb ma mb ea eb).toOption := by
  unfold compressedAt compressedFieldAt
  rw [toOption_pbind, sliceV2_toOption]
  refine congrArg _ (funext fun sgn => ?_)
  rw [toOption_pbind, sliceV2_toOption]
  refine congrArg _ (funext fun mant => ?_)
  rw [toOption_pbind, sliceV2_toOption]
  exact congrArg _ (funext fun expo => (floatField_toOption label _).symm)

lemma line1Fields_eq_toOption (l1 : List Char) :
    line1Fields l1 = (line1FieldsV2 l1).toOption := by
  unfold line1Fields line1FieldsV2
  rw [toOption_pbind, ← intAt_eq_toOption "invalid sat num"]
  refine congrArg _ (funext fun satNum => ?_)
  rw [toOption_pbind, ← intAt_eq_toOption "invalid epoch year"]
  refine congrArg _ (funext fun epochYear => ?_)
  rw [toOption_pbind, ← floatAt_eq_toOption "invalid epoch days"]
  refine congrArg _ (funext fun epochDays => ?_)
  rw [toOption_pbind, ← floatAt_eq_toOption "invalid ndot"]
  refine congrArg _ (funext fun ndot => ?_)
  rw [toOption_pbind, ← compressedAt_eq_toOption "invalid nddot"]
  refine congrArg _ (funext fun nddot => ?_)
  rw [toOption_pbind, ← compressedAt_eq_toOption "invalid bstar"]
  rfl

lemma line2Fields_eq_toOption (l2 : List Char) :
    line2Fields l2 = (line2FieldsV2 l2).toOption := by
  unfold line2Fields line2FieldsV2
  rw [toOption_pbind, ← floatAt_eq_toOption "invalid inclo"]
  refine congrArg _ (funext fun inclo => ?_)
  rw [toOption_pbind, ← floatAt_eq_toOption "invalid nodeo"]
  refine congrArg _ (funext fun nodeo => ?_)
  rw [toOption_pbind, ← floatAt_eq_toOption "invalid ecco"]
  refine congrArg _ (funext fun ecco => ?_)
  rw [toOption_pbind, ← floatAt_eq_toOption "invalid argpo"]
  refine congrArg _ (funext fun argpo => ?_)
  rw [toOption_pbind, ← floatAt_eq_toOption "invalid mo"]
  refine congrArg _ (funext fun mo => ?_)
  rw [toOption_pbind, ← floatAt_eq_toOption "invalid no"]
  rfl

/-- The strict parser is exactly the validating parser with the error
information forgotten. -/
lemma parseTLE_eq_toOption (l1 l2 : List Char) (g : Gravity) :
    ParseTLE l1 l2 g = (ParseTLEV2 l1 l2 g).toOption := by
  unfold ParseTLE ParseTLEV2 getGravConstV2
  rw [toOption_pbind]
  show _ = Option.bind (some (getGravConst g)) _
  rw [Option.bind]
  rw [toOption_pbind, ← line1Fields_eq_toOption]
  refine congrArg _ (funext fun f1 => ?_)
  rw [toOption_pbind, ← line2Fields_eq_toOption]
  rfl

lemma sliceV2_of_le {l : List Char} {a b : ℕ} (h : b ≤ l.length) :
    sliceV2 l a b = .ok (sliceGo l a b) := by
  unfold sliceV2 goSlice
  simp [h]

lemma sliceV2_ok_le {l : List Char} {a b : ℕ} {t : List Char}
    (h : sliceV2 l a b = .ok t) : b ≤ l.length := by
  unfold sliceV2 goSlice at h
  by_cases hb : b ≤ l.length
  · exact hb
  · simp [hb] at h

lemma floatFieldAt_ok_le {label : String} {l : List Char} {a b : ℕ}
    {tr : List Char → List Char} {d : Dec}
    (h : floatFieldAt label l a b tr = .ok d) : b ≤ l.length := by
  unfold floatFieldAt at h
  obtain ⟨raw, hr, -⟩ := pbind_eq_ok h
  exact sliceV2_ok_le hr

lemma compressedFieldAt_ok_le {label : String} {l : List Char}
    {sa sb ma mb ea eb : ℕ} {d : Dec}
    (h : compressedFieldAt label l sa sb ma mb ea eb = .ok d) : eb ≤ l.length := by
  unfold compressedFieldAt at h
  obtain ⟨sgn, -, h⟩ := pbind_eq_ok h
  obtain ⟨mant, -, h⟩ := pbind_eq_ok h
  obtain ⟨expo, he, -⟩ := pbind_eq_ok h
  exact sliceV2_ok_le he

lemma line1FieldsV2_ok_length {l1 : List Char}
    {v : ℤ × ℤ × Dec × Dec × Dec × Dec}
    (h : line1FieldsV2 l1 = .ok v) : 61 ≤ l1.length := by
  unfold line1FieldsV2 at h
  obtain ⟨a1, h1, h⟩ := pbind_eq_ok h
  obtain ⟨a2, h2, h⟩ := pbind_eq_ok h
  obtain ⟨a3, h3, h⟩ := pbind_eq_ok h
  obtain ⟨a4, h4, h⟩ := pbind_eq_ok h
  obtain ⟨a5, h5, h⟩ := pbind_eq_ok h
  obtain ⟨a6, h6, h⟩ := pbind_eq_ok h
  exact compressedFieldAt_ok_le h6

lemma line2FieldsV2_ok_length {l2 : List Char}
    {v : Dec × Dec × Dec × Dec × Dec × Dec}
    (h : line2FieldsV2 l2 = .ok v) : 63 ≤ l2.length := by
  unfold line2FieldsV2 at h
  obtain ⟨a1, h1, h⟩ := pbind_eq_ok h
  obtain ⟨a2, h2, h⟩ := pbind_eq_ok h
  obtain ⟨a3, h3, h⟩ := pbind_eq_ok h
  obtain ⟨a4, h4, h⟩ := pbind_eq_ok h
  obtain ⟨a5, h5, h⟩ := pbind_eq_ok h
  obtain ⟨a6, h6, h⟩ := pbind_eq_ok h
  exact floatFieldAt_ok_le h6

lemma parseTLEV2_ok_lengths {l1 l2 : List Char} {g : Gravity}
    {sat : Satellite Dec} (h : ParseTLEV2 l1 l2 g = .ok sat) :
    61 ≤ l1.length ∧ 63 ≤ l2.length := by
  unfold ParseTLEV2 at h
  obtain ⟨w, hw, h⟩ := pbind_eq_ok h
  obtain ⟨f1, hf1, h⟩ := pbind_eq_ok h
  obtain ⟨f2, hf2, h⟩ := pbind_eq_ok h
  exact ⟨line1FieldsV2_ok_length hf1, line2FieldsV2_ok_length hf2⟩

lemma line1FieldsV2_eval (l1 : List Char) (h : 61 ≤ l1.length) :
    line1FieldsV2 l1 =
      match firstDefect (line1Table l1) with
      | some p => .fail p.1 p.2
      | none => .ok (line1Values l1) := by
  have e1 : sliceV2 l1 2 7 = .ok (sliceGo l1 2 7) := sliceV2_of_le (by omega)
  have e2 : sliceV2 l1 18 20 = .ok (sliceGo l1 18 20) := sliceV2_of_le (by omega)
  have e3 : sliceV2 l1 20 32 = .ok (sliceGo l1 20 32) := sliceV2_of_le (by omega)
  have e4 : sliceV2 l1 33 43 = .ok (sliceGo l1 33 43) := sliceV2_of_le (by omega)
  have e5 : sliceV2 l1 44 45 = .ok (sliceGo l1 44 45) := sliceV2_of_le (by omega)
  have e6 : sliceV2 l1 45 50 = .ok (sliceGo l1 45 50) := sliceV2_of_le (by omega)
  have e7 : sliceV2 l1 50 52 = .ok (sliceGo l1 50 52) := sliceV2_of_le (by omega)
  have e8 : sliceV2 l1 53 54 = .ok (sliceGo l1 53 54) := sliceV2_of_le (by omega)
  have e9 : sliceV2 l1 54 59 = .ok (sliceGo l1 54 59) := sliceV2_of_le (by omega)
  have e10 : sliceV2 l1 59 61 = .ok (sliceGo l1 59 61) := sliceV2_of_le (by omega)
  rcases hA : strconvParseInt (trimSpace (sliceGo l1 2 7)) with cA | vA <;>
  rcases hB : strconvParseInt (sliceGo l1 18 20) with cB | vB <;>
  rcases hC : strconvParseFloat (sliceGo l1 20 32) with cC | vC <;>
  rcases hD : strconvParseFloat (stripSpaces2 (sliceGo l1 33 43)) with cD | vD <;>
  rcases hE : strconvParseFloat (compressedText (sliceGo l1 44 45) (sliceGo l1 45 50) (sliceGo l1 50 52)) with cE | vE <;>
  rcases hF : strconvParseFloat (compressedText (sliceGo l1 53 54) (sliceGo l1 54 59) (sliceGo l1 59 61)) with cF | vF <;>
    simp [line1FieldsV2, intFieldAt, floatFieldAt, compressedFieldAt,
      e1, e2, e3, e4, e5, e6, e7, e8, e9, e10, pbind_ok, pbind_fail,
      line1Table, firstDefect, fieldDefect, line1Values, intField, floatField,
      compressedValue, hA, hB, hC, hD, hE, hF, Except.toOption]

lemma line2FieldsV2_eval (l2 : List Char) (h : 63 ≤ l2.length) :
    line2FieldsV2 l2 =
      match firstDefect (line2Table l2) with
      | some p => .fail p.1 p.2
      | none => .ok (line2Values l2) := by
  have e1 : sliceV2 l2 8 16 = .ok (sliceGo l2 8 16) := sliceV2_of_le (by omega)
  have e2 : sliceV2 l2 17 25 = .ok (sliceGo l2 17 25) := sliceV2_of_le (by omega)
  have e3 : sliceV2 l2 26 33 = .ok (sliceGo l2 26 33) := sliceV2_of_le (by omega)
  have e4 : sliceV2 l2 34 42 = .ok (sliceGo l2 34 42) := sliceV2_of_le (by omega)
  have e5 : sliceV2 l2 43 51 = .ok (sliceGo l2 43 51) := sliceV2_of_le (by omega)
  have e6 : sliceV2 l2 52 63 = .ok (sliceGo l2 52 63) := sliceV2_of_le (by omega)
  rcases hA : strconvParseFloat (stripSpaces2 (sliceGo l2 8 16)) with cA | vA <;>
  rcases hB : strconvParseFloat (stripSpaces2 (sliceGo l2 17 25)) with cB | vB <;>
  rcases hC : strconvParseFloat (eccoText (sliceGo l2 26 33)) with cC | vC <;>
  rcases hD : strconvParseFloat (stripSpaces2 (sliceGo l2 34 42)) with cD | vD <;>
  rcases hE : strconvParseFloat (stripSpaces2 (sliceGo l2 43 51)) with cE | vE <;>
  rcases hF : strconvParseFloat (stripSpaces2 (sliceGo l2 52 63)) with cF | vF <;>
    simp [line2FieldsV2, floatFieldAt, e1, e2, e3, e4, e5, e6,
      pbind_ok, pbind_fail, line2Table, firstDefect, fieldDefect,
      line2Values, floatField, eccoValue, hA, hB, hC, hD, hE, hF,
      Except.toOption]

lemma firstDefect_append (xs ys : List TLEField) :
    firstDefect (xs ++ ys) =
      match firstDefect xs with
      | some p => some p
      | none => firstDefect ys := by
  induction xs with
  | nil => rfl
  | cons f rest ih =>
    simp only [List.cons_append, firstDefect]
    cases fieldDefect f <;> simp [ih]

lemma tleFieldTable_eq_append (l1 l2 : List Char) :
    tleFieldTable l1 l2 = line1Table l1 ++ line2Table l2 := rfl

/-- On structurally complete lines, the validating parser returns the first
parse defect as the labelled error, and the assembled record when there is
none. -/
lemma parseTLEV2_eval (l1 l2 : List Char) (g : Gravity)
    (h1 : 61 ≤ l1.length) (h2 : 63 ≤ l2.length) :
    ParseTLEV2 l1 l2 g =
      match firstDefect (tleFieldTable l1 l2) with
      | some p => .fail p.1 p.2
      | none => .ok (parsedRecord l1 l2 g) := by
  unfold ParseTLEV2
  rw [tleFieldTable_eq_append, firstDefect_append]
  simp only [getGravConstV2, pbind_ok, line1FieldsV2_eval l1 h1,
    line2FieldsV2_eval l2 h2]
  rcases hd1 : firstDefect (line1Table l1) with _ | p1
  · rcases hd2 : firstDefect (line2Table l2) with _ | p2 <;>
      simp [hd2, parsedRecord, pbind_ok, pbind_fail]
  · simp [pbind_fail]

lemma takeWhile_all_eq {p : Char → Bool} {l : List Char} (h : l.all p = true) :
    l.takeWhile p = l := by
  induction l with
  | nil => rfl
  | cons c r ih =>
    simp only [List.all_cons, Bool.and_eq_true] at h
    simp [List.takeWhile_cons, h.1, ih h.2]

lemma dropWhile_all_eq {p : Char → Bool} {l : List Char} (h : l.all p = true) :
    l.dropWhile p = [] := by
  induction l with
  | nil => rfl
  | cons c r ih =>
    simp only [List.all_cons, Bool.and_eq_true] at h
    simp [List.dropWhile_cons, h.1, ih h.2]

lemma takeWhile_append_cons {p : Char → Bool} {l : List Char} {c : Char}
    (r : List Char) (h : l.all p = true) (hc : p c = false) :
    (l ++ c :: r).takeWhile p = l := by
  induction l with
  | nil => simp [List.takeWhile_cons, hc]
  | cons d t ih =>
    simp only [List.all_cons, Bool.and_eq_true] at h
    simp [List.takeWhile_cons, h.1, ih h.2]

lemma dropWhile_append_cons {p : Char → Bool} {l : List Char} {c : Char}
    (r : List Char) (h : l.all p = true) (hc : p c = false) :
    (l ++ c :: r).dropWhile p = c :: r := by
  induction l with
  | nil => simp [List.dropWhile_cons, hc]
  | cons d t ih =>
    simp only [List.all_cons, Bool.and_eq_true] at h
    simp [List.dropWhile_cons, h.1, ih h.2]

lemma ne_space_of_isDigit {c : Char} (h : c.isDigit = true) : ¬(c = ' ') := by
  intro hc
  subst hc
  exact absurd h (by decide)

lemma stripSpacesUpTo_zero (l : List Char) : stripSpacesUpTo 0 l = l := by
  cases l <;> rfl

lemma stripSpacesUpTo_no_space {l : List Char} (h : ∀ c ∈ l, ¬(c = ' '))
    (n : ℕ) : stripSpacesUpTo n l = l := by
  induction l generalizing n with
  | nil => cases n <;> rfl
  | cons c r ih =>
    cases n with
    | zero => rfl
    | succ m =>
      have hc : ¬(c = ' ') := h c (List.mem_cons_self c r)
      simp only [stripSpacesUpTo, if_neg hc]
      exact congrArg _ (ih (fun x hx => h x (List.mem_cons_of_mem c hx)) (m + 1))

lemma count_space_zero_filter {l : List Char} (h : l.count ' ' = 0) :
    l.filter (fun c => c != ' ') = l := by
  induction l with
  | nil => rfl
  | cons c r ih =>
    rw [List.count_cons] at h
    by_cases hc : c = ' '
    · subst hc
      simp at h
    · have hr : r.count ' ' = 0 := by
        simp only [beq_iff_eq] at h
        omega
      simp [List.filter_cons, hc, ih hr, bne_iff_ne]

lemma stripSpacesUpTo_count {l : List Char} : ∀ {n : ℕ}, l.count ' ' ≤ n →
    stripSpacesUpTo n l = l.filter (fun c => c != ' ') := by
  induction l with
  | nil => intro n h; cases n <;> rfl
  | cons c r ih =>
    intro n h
    rw [List.count_cons] at h
    by_cases hc : c = ' '
    · subst hc
      rw [if_pos (by simp)] at h
      cases n with
      | zero => exact absurd h (by omega)
      | succ m =>
        have hr : r.count ' ' ≤ m := by omega
        simp [stripSpacesUpTo, List.filter_cons, ih hr]
    · rw [if_neg (by simp [hc])] at h
      cases n with
      | zero =>
        have hr : r.count ' ' = 0 := by omega
        rw [stripSpacesUpTo_zero]
        simp [List.filter_cons, hc, count_space_zero_filter hr]
      | succ m =>
        have hr : r.count ' ' ≤ m + 1 := by omega
        simp [stripSpacesUpTo, hc, List.filter_cons, ih hr]

lemma readSign_plus (l : List Char) : readSign ('+' :: l) = (false, l) := rfl

lemma readSign_minus (l : List Char) : readSign ('-' :: l) = (true, l) := rfl

lemma readSign_dot (l : List Char) : readSign ('.' :: l) = (false, '.' :: l) := rfl

lemma readMantissa_dot_append {m : List Char} (r : List Char)
    (hm : m.all Char.isDigit = true) (hne : m ≠ [])
    (hr : ∀ c, r.head? = some c → c.isDigit = false) :
    readMantissa ('.' :: (m ++ r)) =
      some (⟨(digitsVal m : ℤ), -(m.length : ℤ)⟩, r) := by
  have hdot : Char.isDigit '.' = false := by decide
  have hm' : m.isEmpty = false := by
    cases m with
    | nil => exact absurd rfl hne
    | cons _ _ => rfl
  have htake : (m ++ r).takeWhile Char.isDigit = m := by
    cases r with
    | nil => rw [List.append_nil]; exact takeWhile_all_eq hm
    | cons c t => exact takeWhile_append_cons t hm (hr c rfl)
  have hdrop : (m ++ r).dropWhile Char.isDigit = r := by
    cases r with
    | nil => rw [List.append_nil]; exact dropWhile_all_eq hm
    | cons c t => exact dropWhile_append_cons t hm (hr c rfl)
  unfold readMantissa
  simp [List.takeWhile_cons, List.dropWhile_cons, hdot, htake, hdrop, hm']

lemma readExpPart_neg {neg : Bool} {d : Dec} {ed : List Char}
    (hed : ed.all Char.isDigit = true) (hne : ed ≠ []) :
    readExpPart neg d ('-' :: ed) =
      .ok (applyNeg neg ⟨d.num, d.exp + -(digitsVal ed : ℤ)⟩) := by
  have hed' : ed.isEmpty = false := by
    cases ed with
    | nil => exact absurd rfl hne
    | cons _ _ => rfl
  unfold readExpPart readSign
  simp [takeWhile_all_eq hed, dropWhile_all_eq hed, hed']

lemma readExpPart_pos {neg : Bool} {d : Dec} {ed : List Char}
    (hed : ed.all Char.isDigit = true) (hne : ed ≠ []) :
    readExpPart neg d ('+' :: ed) =
      .ok (applyNeg neg ⟨d.num, d.exp + (digitsVal ed : ℤ)⟩) := by
  have hed' : ed.isEmpty = false := by
    cases ed with
    | nil => exact absurd rfl hne
    | cons _ _ => rfl
  unfold readExpPart readSign
  simp [takeWhile_all_eq hed, dropWhile_all_eq hed, hed']

lemma strconvParseFloat_of_readSign {l r0 : List Char} {neg : Bool}
    (h : readSign l = (neg, r0)) :
    strconvParseFloat l =
      match readMantissa r0 with
      | none => .error "invalid syntax"
      | some (m, r1) =>
        match r1 with
        | [] => .ok (applyNeg neg m)
        | 'e' :: r2 => readExpPart neg m r2
        | 'E' :: r2 => readExpPart neg m r2
        | _ => .error "invalid syntax" := by
  unfold strconvParseFloat
  rw [h]

/-- Parse of the implied-point form `"." ++ digits`: the digits over
`10 ^ length`. -/
lemma strconvParseFloat_dot_digits {ds : List Char}
    (hds : ds.all Char.isDigit = true) (hne : ds ≠ []) :
    strconvParseFloat ('.' :: ds) =
      .ok ⟨(digitsVal ds : ℤ), -(ds.length : ℤ)⟩ := by
  have hm : readMantissa ('.' :: ds) =
      some (⟨(digitsVal ds : ℤ), -(ds.length : ℤ)⟩, []) := by
    have h := readMantissa_dot_append (m := ds) [] hds hne
      (fun c hc => by simp at hc)
    rwa [List.append_nil] at h
  rw [strconvParseFloat_of_readSign (readSign_dot ds), hm]
  rfl

/-- Parse of the reconstructed text `"." ++ mantissa ++ "e" ++ sign ++
digits` with a negative exponent sign. -/
lemma strconvParseFloat_dot_e_neg {m ed : List Char}
    (hm : m.all Char.isDigit = true) (hmne : m ≠ [])
    (hed : ed.all Char.isDigit = true) (hedne : ed ≠ []) :
    strconvParseFloat ('.' :: (m ++ 'e' :: '-' :: ed)) =
      .ok ⟨(digitsVal m : ℤ), -(m.length : ℤ) + -(digitsVal ed : ℤ)⟩ := by
  rw [strconvParseFloat_of_readSign (readSign_dot (m ++ 'e' :: '-' :: ed)),
    readMantissa_dot_append ('e' :: '-' :: ed) hm hmne
      (fun c hc => by simp at hc; subst hc; decide)]
  show readExpPart false _ ('-' :: ed) = _
  rw [readExpPart_neg hed hedne]
  rfl

/-- The same with a positive exponent sign. -/
lemma strconvParseFloat_dot_e_pos {m ed : List Char}
    (hm : m.all Char.isDigit = true) (hmne : m ≠ [])
    (hed : ed.all Char.isDigit = true) (hedne : ed ≠ []) :
    strconvParseFloat ('.' :: (m ++ 'e' :: '+' :: ed)) =
      .ok ⟨(digitsVal m : ℤ), -(m.length : ℤ) + (digitsVal ed : ℤ)⟩ := by
  rw [strconvParseFloat_of_readSign (readSign_dot (m ++ 'e' :: '+' :: ed)),
    readMantissa_dot_append ('e' :: '+' :: ed) hm hmne
      (fun c hc => by simp at hc; subst hc; decide)]
  show readExpPart false _ ('+' :: ed) = _
  rw [readExpPart_pos hed hedne]
  rfl

lemma all_digit_mem {l : List Char} (h : l.all Char.isDigit = true) {c : Char}
    (hc : c ∈ l) : c.isDigit = true := by
  exact List.all_eq_true.mp h c hc

lemma no_space_payload {m ed : List Char} {c : Char}
    (hm : m.all Char.isDigit = true) (hed : ed.all Char.isDigit = true)
    (hc : ¬(c = ' ')) :
    ∀ x ∈ '.' :: (m ++ 'e' :: c :: ed), ¬(x = ' ') := by
  intro x hx
  simp only [List.mem_cons, List.mem_append] at hx
  rcases hx with rfl | hx
  · decide
  rcases hx with hxm | hx
  · exact ne_space_of_isDigit (all_digit_mem hm hxm)
  rcases hx with rfl | hx
  · decide
  rcases hx with rfl | hx
  · exact hc
  · exact ne_space_of_isDigit (all_digit_mem hed hx)

/-- With a blank sign column, the strip removes exactly that blank from the
reconstructed text. -/
lemma compressedText_space {m ed : List Char} {c : Char}
    (hm : m.all Char.isDigit = true) (hed : ed.all Char.isDigit = true)
    (hc : ¬(c = ' ')) :
    compressedText [' '] m (c :: ed) = '.' :: (m ++ 'e' :: c :: ed) := by
  unfold compressedText stripSpaces2
  simp only [List.cons_append, List.nil_append]
  rw [show stripSpacesUpTo 2 (' ' :: '.' :: (m ++ 'e' :: c :: ed)) =
      stripSpacesUpTo 1 ('.' :: (m ++ 'e' :: c :: ed)) by
    simp [stripSpacesUpTo]]
  exact stripSpacesUpTo_no_space (no_space_payload hm hed hc) 1

/-- With a non-blank sign column, the strip leaves the reconstructed text
unchanged. -/
lemma compressedText_sign {m ed : List Char} {s c : Char}
    (hs : ¬(s = ' ')) (hm : m.all Char.isDigit = true)
    (hed : ed.all Char.isDigit = true) (hc : ¬(c = ' ')) :
    compressedText [s] m (c :: ed) = s :: '.' :: (m ++ 'e' :: c :: ed) := by
  unfold compressedText stripSpaces2
  simp only [List.cons_append, List.nil_append]
  refine stripSpacesUpTo_no_space ?_ 2
  intro x hx
  rcases List.mem_cons.mp hx with rfl | hx
  · exact hs
  · exact no_space_payload hm hed hc x hx

lemma compressedValue_space_negExp {m ed : List Char}
    (hm : m.all Char.isDigit = true) (hmne : m ≠ [])
    (hed : ed.all Char.isDigit = true) (hedne : ed ≠ []) :
    compressedValue [' '] m ('-' :: ed) =
      .ok ⟨(digitsVal m : ℤ), -(m.length : ℤ) + -(digitsVal ed : ℤ)⟩ := by
  unfold compressedValue
  rw [compressedText_space hm hed (by decide),
    strconvParseFloat_dot_e_neg hm hmne hed hedne]

lemma compressedValue_plus_negExp {m ed : List Char}
    (hm : m.all Char.isDigit = true) (hmne : m ≠ [])
    (hed : ed.all Char.isDigit = true) (hedne : ed ≠ []) :
    compressedValue ['+'] m ('-' :: ed) =
      .ok ⟨(digitsVal m : ℤ), -(m.length : ℤ) + -(digitsVal ed : ℤ)⟩ := by
  unfold compressedValue
  rw [compressedText_sign (by decide) hm hed (by decide)]
  rw [strconvParseFloat_of_readSign (readSign_plus ('.' :: (m ++ 'e' :: '-' :: ed)))]
  rw [readMantissa_dot_append ('e' :: '-' :: ed) hm hmne
    (fun c hc => by simp at hc; subst hc; decide)]
  show readExpPart false _ ('-' :: ed) = _
  rw [readExpPart_neg hed hedne]
  rfl

lemma compressedValue_minus_posExp {m ed : List Char}
    (hm : m.all Char.isDigit = true) (hmne : m ≠ [])
    (hed : ed.all Char.isDigit = true) (hedne : ed ≠ []) :
    compressedValue ['-'] m ('+' :: ed) =
      .ok ⟨-(digitsVal m : ℤ), -(m.length : ℤ) + (digitsVal ed : ℤ)⟩ := by
  unfold compressedValue
  rw [compressedText_sign (by decide) hm hed (by decide)]
  rw [strconvParseFloat_of_readSign (readSign_minus ('.' :: (m ++ 'e' :: '+' :: ed)))]
  rw [readMantissa_dot_append ('e' :: '+' :: ed) hm hmne
    (fun c hc => by simp at hc; subst hc; decide)]
  show readExpPart true _ ('+' :: ed) = _
  rw [readExpPart_pos hed hedne]
  rfl

lemma Dec.toRat_neg_exp (a : ℤ) (n : ℕ) :
    Dec.toRat ⟨a, -(n : ℤ)⟩ = (a : ℚ) / 10 ^ n := by
  unfold Dec.toRat
  rw [zpow_neg, zpow_natCast, div_eq_mul_inv]

lemma Dec.toRat_negneg (a : ℤ) (n e : ℕ) :
    Dec.toRat ⟨a, -(n : ℤ) + -(e : ℤ)⟩ = (a : ℚ) / 10 ^ n / 10 ^ e := by
  unfold Dec.toRat
  rw [zpow_add₀ (by norm_num : (10 : ℚ) ≠ 0), zpow_neg, zpow_neg,
    zpow_natCast, zpow_natCast]
  rw [div_div, div_eq_mul_inv, mul_inv]

lemma Dec.toRat_negpos (a : ℤ) (n e : ℕ) :
    Dec.toRat ⟨a, -(n : ℤ) + (e : ℤ)⟩ = (a : ℚ) / 10 ^ n * 10 ^ e := by
  unfold Dec.toRat
  rw [zpow_add₀ (by norm_num : (10 : ℚ) ≠ 0), zpow_neg, zpow_natCast,
    zpow_natCast]
  rw [div_eq_mul_inv, mul_assoc]

/-- C1 counterexample: with sign `'-'`, mantissa `54321`, exponent `+2`, the
reconstruction parses to −0.54321 × 10² = −54.321, not −54321 × 10² as the
claim's second example states. -/
theorem C1_counterexample :
    compressedValue ("-".toList) ("54321".toList) ("+2".toList) =
      .ok ⟨-54321, -3⟩ ∧
    Dec.toRat ⟨-54321, -3⟩ = -(54321 / 10 ^ 5 * 10 ^ 2 : ℚ) ∧
    Dec.toRat ⟨-54321, -3⟩ ≠ (-54321 * 10 ^ 2 : ℚ) := by
  refine ⟨by decide, ?_, ?_⟩ <;> unfold Dec.toRat <;> norm_num

/-- C1 (amended): the compressed-form reconstruction inserts a decimal point
immediately after the sign, appends an exponent marker and the signed
exponent, and parses the result; a blank or `'+'` sign with mantissa `m` and
exponent `-e` yields 0.m × 10⁻ᵉ, and a `'-'` sign with exponent `+e` yields
−0.m × 10ᵉ (not −m × 10ᵉ); in particular mantissa 12345 with sign `'+'` (or
blank) and exponent −3 yields 0.12345 × 10⁻³, and mantissa 54321 with sign
`'-'` and exponent +2 yields −0.54321 × 10². -/
theorem C1_compressed_reconstruction {m ed : List Char}
    (hm : m.all Char.isDigit = true) (hmne : m ≠ [])
    (hed : ed.all Char.isDigit = true) (hedne : ed ≠ []) :
    compressedValue [' '] m ('-' :: ed) =
      .ok ⟨(digitsVal m : ℤ), -(m.length : ℤ) + -(digitsVal ed : ℤ)⟩ ∧
    compressedValue ['+'] m ('-' :: ed) =
      .ok ⟨(digitsVal m : ℤ), -(m.length : ℤ) + -(digitsVal ed : ℤ)⟩ ∧
    compressedValue ['-'] m ('+' :: ed) =
      .ok ⟨-(digitsVal m : ℤ), -(m.length : ℤ) + (digitsVal ed : ℤ)⟩ ∧
    Dec.toRat ⟨(digitsVal m : ℤ), -(m.length : ℤ) + -(digitsVal ed : ℤ)⟩ =
      (digitsVal m : ℚ) / 10 ^ m.length / 10 ^ digitsVal ed ∧
    Dec.toRat ⟨-(digitsVal m : ℤ), -(m.length : ℤ) + (digitsVal ed : ℤ)⟩ =
      -((digitsVal m : ℚ) / 10 ^ m.length * 10 ^ digitsVal ed) ∧
    compressedValue [' '] ("12345".toList) ("-3".toList) = .ok ⟨12345, -8⟩ ∧
    compressedValue ['+'] ("12345".toList) ("-3".toList) = .ok ⟨12345, -8⟩ ∧
    Dec.toRat ⟨12345, -8⟩ = 12345 / 10 ^ 8 ∧
    Dec.toRat ⟨-54321, -3⟩ = -(54321 / 10 ^ 5 * 10 ^ 2 : ℚ) := by
  refine ⟨compressedValue_space_negExp hm hmne hed hedne,
    compressedValue_plus_negExp hm hmne hed hedne,
    compressedValue_minus_posExp hm hmne hed hedne,
    Dec.toRat_negneg _ _ _, ?_, by decide, by decide, ?_, ?_⟩
  · rw [Dec.toRat_negpos]
    push_cast
    ring
  · unfold Dec.toRat; norm_num
  · unfold Dec.toRat; norm_num

/-- C1 witness: the theorem applied to mantissa `12345` and exponent digits
`3`. -/
theorem C1_witness :
    compressedValue [' '] ("12345".toList) ('-' :: "3".toList) =
      .ok ⟨(digitsVal ("12345".toList) : ℤ),
           -(("12345".toList).length : ℤ) + -(digitsVal ("3".toList) : ℤ)⟩ :=
  (C1_compressed_reconstruction (by decide) (by decide) (by decide)
    (by decide)).1

/-- C2 counterexample: the reference line 1 truncated to 60 characters is
shorter than the 61 columns the format requires, yet the validating parser
faults (slice out of range) instead of returning a structured error naming
the offending field. -/
theorem C2_counterexample :
    (tleL1.toList.take 60).length < 61 ∧
    ParseTLEV2 (tleL1.toList.take 60) tleL2.toList Gravity.wgs84 =
      ParseResult.fault :=
  ⟨by decide, by decide⟩

/-- C2 (amended): on a line shorter than the maximum column offset the
format requires, the validating policy never returns a record — it returns
an earlier field's structured error or faults — and the strict policy never
returns normally; both conversion entry points behave likewise. -/
theorem C2_truncated_never_returns (K : Type) [LinearOrderedField K]
    [FloorRing K] (pi : K) (f : Satellite K → Satellite K)
    (l1 l2 : List Char) (g : Gravity)
    (h : l1.length < 61 ∨ l2.length < 63) :
    (∀ s, ParseTLEV2 l1 l2 g ≠ .ok s) ∧
    ParseTLE l1 l2 g = none ∧
    (∀ s, TLEToSatV2 K pi f l1 l2 g ≠ .ok s) ∧
    TLEToSat K pi f l1 l2 g = none := by
  have hnotok : ∀ s, ParseTLEV2 l1 l2 g ≠ .ok s := by
    intro s hs
    have hl := parseTLEV2_ok_lengths hs
    rcases h with h | h <;> omega
  have hnone : ParseTLE l1 l2 g = none := by
    rw [parseTLE_eq_toOption]
    cases hr : ParseTLEV2 l1 l2 g with
    | ok s => exact absurd hr (hnotok s)
    | fail l c => rfl
    | fault => rfl
  refine ⟨hnotok, hnone, ?_, ?_⟩
  · intro s hs
    unfold TLEToSatV2 at hs
    cases hr : ParseTLEV2 l1 l2 g with
    | ok s' => exact absurd hr (hnotok s')
    | fail l c => rw [hr] at hs; exact absurd hs (by simp)
    | fault => rw [hr] at hs; exact absurd hs (by simp)
  · unfold TLEToSat
    rw [hnone]
    rfl

/-- C2 witness: the amended theorem applied to the truncated reference
line. -/
theorem C2_witness :
    ParseTLE (tleL1.toList.take 60) tleL2.toList Gravity.wgs84 = none :=
  (C2_truncated_never_returns ℚ 3 id (tleL1.toList.take 60) tleL2.toList
    Gravity.wgs84 (Or.inl (by decide))).2.1

/-- C3: the unit normalization shared by TLEToSat and TLEToSatV2 multiplies
the mean motion by 2π/1440 (revolutions/day to radians/minute), divides the
first derivative additionally by 1440 and the second by 1440², and
multiplies each angular element by π/180; so 1.0 revolution/day becomes
2π/1440 radians/minute and 180 degrees becomes π radians. -/
theorem C3_unit_normalization (s : Satellite ℝ) :
    (normalizeUnits ℝ Real.pi s).no = s.no * (2 * Real.pi / 1440) ∧
    (normalizeUnits ℝ Real.pi s).ndot = s.ndot * (2 * Real.pi / 1440) / 1440 ∧
    (normalizeUnits ℝ Real.pi s).nddot =
      s.nddot * (2 * Real.pi / 1440) / (1440 * 1440) ∧
    (normalizeUnits ℝ Real.pi s).inclo = s.inclo * (Real.pi / 180) ∧
    (normalizeUnits ℝ Real.pi s).nodeo = s.nodeo * (Real.pi / 180) ∧
    (normalizeUnits ℝ Real.pi s).argpo = s.argpo * (Real.pi / 180) ∧
    (normalizeUnits ℝ Real.pi s).mo = s.mo * (Real.pi / 180) ∧
    (normalizeUnits ℝ Real.pi { s with no := 1 }).no = 2 * Real.pi / 1440 ∧
    (normalizeUnits ℝ Real.pi { s with inclo := 180 }).inclo = Real.pi := by
  have hpi := Real.pi_ne_zero
  simp only [normalizeUnits, XPDOTP, DEG2RAD]
  refine ⟨?_, ?_, ?_, ?_, ?_, ?_, ?_, ?_, ?_⟩ <;> field_simp <;>
    first
    | (left; ring)
    | ring

/-- C4: the century pivot of TLEToSat and TLEToSatV2 resolves two-digit
years 0–56 to 2000–2056 and 57–99 to 1957–1999. -/
theorem C4_century_pivot (y : ℤ) :
    (0 ≤ y → y ≤ 56 → resolveYear y = 2000 + y) ∧
    (57 ≤ y → y ≤ 99 → resolveYear y = 1900 + y) := by
  unfold resolveYear
  constructor <;> intro h1 h2
  · rw [if_pos (by omega)]; omega
  · rw [if_neg (by omega)]; omega

/-- C4 witness: the pivot evaluated at 0, 56, 57 and 99. -/
theorem C4_witness :
    resolveYear 0 = 2000 + 0 ∧ resolveYear 56 = 2000 + 56 ∧
    resolveYear 57 = 1900 + 57 ∧ resolveYear 99 = 1900 + 99 :=
  ⟨(C4_century_pivot 0).1 (by decide) (by decide),
   (C4_century_pivot 56).1 (by decide) (by decide),
   (C4_century_pivot 57).2 (by decide) (by decide),
   (C4_century_pivot 99).2 (by decide) (by decide)⟩

/-- C5 counterexample: on input whose epoch day-of-year is 400.51782528
(≥ 367), TLEToSatV2 returns a record and no error, contradicting the claim
that it returns a range-defect error and produces no record. -/
theorem C5_counterexample :
    ParseTLEV2 tleL1Day400.toList tleL2.toList Gravity.wgs84 =
      .ok day400Record ∧
    (367 : ℚ) ≤ day400Record.epochdays.toRat ∧
    (TLEToSatV2 ℚ 3 id tleL1Day400.toList tleL2.toList Gravity.wgs84).isOk =
      true := by
  refine ⟨by decide, ?_, by decide⟩
  show (367 : ℚ) ≤ Dec.toRat ⟨40051782528, -8⟩
  unfold Dec.toRat
  norm_num

/-- C5 (amended): TLEToSatV2 performs no day-of-year range validation:
whenever the parse succeeds — including when the parsed epoch day-of-year is
≥ 367 or < 1 — it returns the post-processed record and no error. -/
theorem C5_no_day_range_check (K : Type) [LinearOrderedField K] [FloorRing K]
    (pi : K) (f : Satellite K → Satellite K) (l1 l2 : List Char) (g : Gravity)
    (sat : Satellite Dec) (h : ParseTLEV2 l1 l2 g = .ok sat)
    (hday : 367 ≤ sat.epochdays.toRat ∨ sat.epochdays.toRat < 1) :
    TLEToSatV2 K pi f l1 l2 g =
      .ok (tleToSatPost K pi f (Satellite.castK K sat)) := by
  unfold TLEToSatV2
  rw [h]

/-- C5 witness: the amended theorem applied to the day-400 input. -/
theorem C5_witness :
    TLEToSatV2 ℚ 3 id tleL1Day400.toList tleL2.toList Gravity.wgs84 =
      .ok (tleToSatPost ℚ 3 id (Satellite.castK ℚ day400Record)) :=
  C5_no_day_range_check ℚ 3 id tleL1Day400.toList tleL2.toList Gravity.wgs84
    day400Record (by decide)
    (Or.inl (by show (367 : ℚ) ≤ Dec.toRat ⟨40051782528, -8⟩
                unfold Dec.toRat
                norm_num))

/-- C6: on structurally complete lines, whenever some field's text fails its
numeric parse, ParseTLEV2 returns the first defect in parse order as the
named error wrapping the underlying cause (and hence returns no record and
does not continue past the first defect). -/
theorem C6_first_defect_reported (l1 l2 : List Char) (g : Gravity)
    (lbl c : String) (h1 : 61 ≤ l1.length) (h2 : 63 ≤ l2.length)
    (h : firstDefect (tleFieldTable l1 l2) = some (lbl, c)) :
    ParseTLEV2 l1 l2 g = .fail lbl c := by
  rw [parseTLEV2_eval l1 l2 g h1 h2, h]

/-- C6 witness: the theorem applied to the reference input with a
non-numeric mean anomaly. -/
theorem C6_witness :
    ParseTLEV2 tleL1.toList tleL2MoBad.toList Gravity.wgs84 =
      .fail "invalid mo" "invalid syntax" :=
  C6_first_defect_reported tleL1.toList tleL2MoBad.toList Gravity.wgs84
    "invalid mo" "invalid syntax" (by decide) (by decide) (by decide)

/-- C7: under the strict policy, a field that fails numeric parsing aborts
the conversion — ParseTLE never returns normally and no partial record is
produced. -/
theorem C7_strict_aborts (l1 l2 : List Char) (g : Gravity) (lbl c : String)
    (h1 : 61 ≤ l1.length) (h2 : 63 ≤ l2.length)
    (h : firstDefect (tleFieldTable l1 l2) = some (lbl, c)) :
    ParseTLE l1 l2 g = none := by
  rw [parseTLE_eq_toOption, parseTLEV2_eval l1 l2 g h1 h2, h]
  rfl

/-- C7 witness: the theorem applied to the reference input with a
non-numeric inclination. -/
theorem C7_witness :
    ParseTLE tleL1.toList tleL2IncloBad.toList Gravity.wgs84 = none :=
  C7_strict_aborts tleL1.toList tleL2IncloBad.toList Gravity.wgs84
    "invalid inclo" "invalid syntax" (by decide) (by decide) (by decide)

/-- C8: the eccentricity digits get an implied leading point, so digits `ds`
parse to digitsVal ds / 10 ^ length; raw digits 1234567 parse to exactly
0.1234567; both the strict and the validating policy produce this value (on
the reference input, 0006703 becomes 0.0006703). -/
theorem C8_eccentricity_implied_point (ds : List Char)
    (hds : ds.all Char.isDigit = true) (hne : ds ≠ []) :
    eccoValue ds = .ok ⟨(digitsVal ds : ℤ), -(ds.length : ℤ)⟩ ∧
    Dec.toRat ⟨(digitsVal ds : ℤ), -(ds.length : ℤ)⟩ =
      (digitsVal ds : ℚ) / 10 ^ ds.length ∧
    eccoValue ("1234567".toList) = .ok ⟨1234567, -7⟩ ∧
    Dec.toRat ⟨1234567, -7⟩ = 1234567 / 10 ^ 7 ∧
    (ParseTLE tleL1.toList tleL2.toList Gravity.wgs84).map Satellite.ecco =
      some ⟨6703, -7⟩ ∧
    (ParseTLEV2 tleL1.toList tleL2.toList Gravity.wgs84).toOption.map
      Satellite.ecco = some ⟨6703, -7⟩ := by
  refine ⟨strconvParseFloat_dot_digits hds hne, Dec.toRat_neg_exp _ _,
    by decide, ?_, by decide, by decide⟩
  unfold Dec.toRat
  norm_num

/-- C8 witness: the theorem applied to the digit string 1234567. -/
theorem C8_witness :
    eccoValue ("1234567".toList) =
      .ok ⟨(digitsVal ("1234567".toList) : ℤ),
           -(("1234567".toList).length : ℤ)⟩ :=
  (C8_eccentricity_implied_point ("1234567".toList) (by decide)
    (by decide)).1

/-- C9 counterexample: the mean-anomaly raw text `"   5.028"` has three
spaces around a well-formed number; its de-spaced text parses (to 5.028),
yet the validating policy reports the field invalid and the strict policy
panics, because only the first two spaces are removed. -/
theorem C9_counterexample :
    sliceGo tleL2Mo3Sp.toList 43 51 = "   5.028".toList ∧
    strconvParseFloat (("   5.028".toList).filter (fun c => c != ' ')) =
      .ok ⟨5028, -3⟩ ∧
    ParseTLEV2 tleL1.toList tleL2Mo3Sp.toList Gravity.wgs84 =
      .fail "invalid mo" "invalid syntax" ∧
    ParseTLE tleL1.toList tleL2Mo3Sp.toList Gravity.wgs84 = none :=
  ⟨by decide, by decide, by decide, by decide⟩

/-- C9 (amended): the space-tolerant fields remove at most the first two
space characters before parsing (strings.Replace with count 2); when the raw
text contains at most two spaces this equals removing all spaces, and the
field then parses to the value of the de-spaced text. -/
theorem C9_space_stripping (raw : List Char) (h : raw.count ' ' ≤ 2) :
    stripSpaces2 raw = raw.filter (fun c => c != ' ') ∧
    ∀ d : Dec, strconvParseFloat (raw.filter (fun c => c != ' ')) = .ok d →
      strconvParseFloat (stripSpaces2 raw) = .ok d := by
  have hs : stripSpaces2 raw = raw.filter (fun c => c != ' ') :=
    stripSpacesUpTo_count h
  exact ⟨hs, fun d hd => by rw [hs]; exact hd⟩

/-- C9 witness: the amended theorem applied to the reference inclination
text, which carries one leading space. -/
theorem C9_witness :
    stripSpaces2 (" 51.6416".toList) =
      (" 51.6416".toList).filter (fun c => c != ' ') :=
  (C9_space_stripping (" 51.6416".toList) (by decide)).1

/-- C10: whenever the validating parser returns a record, the strict parser
returns normally with the identical record — same stored lines, same
gravity bundle and identical values for every parsed field. -/
theorem C10_refinement (l1 l2 : List Char) (g : Gravity) (sat : Satellite Dec)
    (h : ParseTLEV2 l1 l2 g = .ok sat) : ParseTLE l1 l2 g = some sat := by
  rw [parseTLE_eq_toOption, h]
  rfl

/-- C10 witness: the theorem applied to the reference element set. -/
theorem C10_witness :
    ParseTLE tleL1.toList tleL2.toList Gravity.wgs84 =
      some (parsedRecord tleL1.toList tleL2.toList Gravity.wgs84) :=
  C10_refinement tleL1.toList tleL2.toList Gravity.wgs84
    (parsedRecord tleL1.toList tleL2.toList Gravity.wgs84) (by decide)
